import Mathlib

/-!
Shallow embedding of the tunnel-session manager and the Windows credential
reset protocol of `app.go` (IAP Tunnel Manager).  Machine state that Go keeps
behind a mutex-guarded map is modelled as an association list passed
explicitly; external collaborators (the OS listener, the serial-port reader,
RSA decryption, SHA-256) are parameters of the functions that consume them.
-/

namespace IapMac

/-- The `Tunnel` struct of app.go.  `startedAt` holds the RFC3339-formatted
start timestamp (the string that `toInfo` exposes and `GetTunnels` sorts by);
the `listener`/`cancel` handles are external resources whose only
state-machine effect (setting the status) is modelled directly. -/
structure Tunnel where
  id : String
  projectID : String
  vmName : String
  zone : String
  localPort : Nat
  remotePort : Nat
  status : String
  startedAt : String
  logs : List String
  bookmarkID : String
deriving Repr, DecidableEq

/-- The `TunnelInfo` struct of app.go: the JSON-safe snapshot returned to the
frontend. -/
structure TunnelInfo where
  id : String
  projectID : String
  vmName : String
  zone : String
  localPort : Nat
  remotePort : Nat
  status : String
  startedAt : String
  logs : List String
  bookmarkID : String
deriving Repr, DecidableEq

/-- The manager's registry `App.tunnels : map[string]*Tunnel`, modelled as an
association list (Go map keys are unique; lookups take the first match). -/
abbrev Registry := List (String × Tunnel)

/-- Registry lookup, `a.tunnels[tunnelID]`. -/
def findTunnel (reg : Registry) (tunnelID : String) : Option Tunnel :=
  (reg.find? (fun p => p.1 == tunnelID)).map (fun p => p.2)

/-- Status of a registered tunnel, if present. -/
def tunnelStatus (reg : Registry) (tunnelID : String) : Option String :=
  (findTunnel reg tunnelID).map (fun t => t.status)

/-- The truncation step of `Tunnel.addLog` (app.go 1452-1461): append one
entry, then keep only the last 100 entries. -/
def appendBounded (logs : List String) (entry : String) : List String :=
  let l := logs ++ [entry]
  if l.length > 100 then l.drop (l.length - 100) else l

/-- `Tunnel.addLog`: format the entry with a timestamp and append with the
100-entry bound.  The timestamp (`time.Now().Format("15:04:05")` in Go) is a
parameter. -/
def addLog (ts msg : String) (t : Tunnel) : Tunnel :=
  { t with logs := appendBounded t.logs ("[" ++ ts ++ "] " ++ msg) }

/-- `Tunnel.toInfo` (app.go 1463-1480): build the snapshot record; the log
slice is copied into a fresh slice. -/
def Tunnel.toInfo (t : Tunnel) : TunnelInfo :=
  { id := t.id
    projectID := t.projectID
    vmName := t.vmName
    zone := t.zone
    localPort := t.localPort
    remotePort := t.remotePort
    status := t.status
    startedAt := t.startedAt
    logs := t.logs
    bookmarkID := t.bookmarkID }

/-- `stopTunnelInternal` (app.go 355-363): cancel the context, close the
listener, and set the status to "stopped".  Cancellation and listener close
act on external resources; the registry-visible effect is the status write. -/
def stopTunnelInternal (t : Tunnel) : Tunnel :=
  { t with status := "stopped" }

/-- `App.StopTunnel` (app.go 1125-1143): unknown ID yields a "tunnel not
found" error and leaves the registry unchanged; otherwise the tunnel's
context is cancelled, its listener closed, and its status set to "stopped"
(unconditionally, whatever the previous status). -/
def StopTunnel (reg : Registry) (tunnelID : String) :
    Except String Unit × Registry :=
  match reg.find? (fun p => p.1 == tunnelID) with
  | none => (.error "tunnel not found", reg)
  | some _ =>
    (.ok (),
     reg.map (fun p =>
       if p.1 == tunnelID then (p.1, stopTunnelInternal p.2) else p))

/-- Whether a tunnel is live for port-collision purposes
(`t.Status == "running" || t.Status == "starting"`). -/
def isActiveStatus (t : Tunnel) : Bool :=
  t.status == "running" || t.status == "starting"

/-- `App.StopAllTunnels` (app.go 1411-1424): stop every running/starting
tunnel, returning how many were stopped. -/
def StopAllTunnels (reg : Registry) : Nat × Registry :=
  (reg.countP (fun p => isActiveStatus p.2),
   reg.map (fun p =>
     if isActiveStatus p.2 then (p.1, stopTunnelInternal p.2) else p))

/-- The registry-visible effect of `App.shutdown` (app.go 309-352): every
running/starting tunnel is stopped via `stopTunnelInternal` (concurrently,
with a bounded wait); the force-close fallback only closes listeners and
writes no status, so it does not appear here. -/
def shutdownTunnels (reg : Registry) : Registry :=
  reg.map (fun p =>
    if isActiveStatus p.2 then (p.1, stopTunnelInternal p.2) else p)

/-- The tail of `runTunnel` (app.go 1076-1080): once the tunnel context is
cancelled the accept loop ends, the status is set to "stopped" and a final
log entry is appended.  This code is only reachable for a tunnel whose
listener bind succeeded (a bind failure returns from `runTunnel` before the
accept loop starts, leaving the status "error"). -/
def acceptLoopComplete (ts : String) (t : Tunnel) : Tunnel :=
  addLog ts "Tunnel stopped" { t with status := "stopped" }

/-- `App.ClearStoppedTunnels` (app.go 1202-1215): delete every tunnel whose
status is "stopped" or "error" and return how many were deleted. -/
def ClearStoppedTunnels (reg : Registry) : Nat × Registry :=
  (reg.countP (fun p => p.2.status == "stopped" || p.2.status == "error"),
   reg.filter (fun p => !(p.2.status == "stopped" || p.2.status == "error")))

/-- `App.RemoveTunnel` (app.go 1183-1200). -/
def RemoveTunnel (reg : Registry) (tunnelID : String) :
    Except String Unit × Registry :=
  match findTunnel reg tunnelID with
  | none => (.error "tunnel not found", reg)
  | some t =>
    if t.status == "running" || t.status == "starting" then
      (.error "cannot remove active tunnel, stop it first", reg)
    else
      (.ok (), reg.filter (fun p => !(p.1 == tunnelID)))

/-- Descending comparison used by `GetTunnels`' `sort.Slice`
(`tunnels[i].StartedAt > tunnels[j].StartedAt`): the formatted start-time
strings are compared, newest first. -/
def newestFirst (a b : TunnelInfo) : Bool :=
  decide (b.startedAt ≤ a.startedAt)

/-- `App.GetTunnels` (app.go 1146-1161): snapshot every tunnel via `toInfo`
and sort by formatted start time, newest first.  Go's `sort.Slice` guarantees
only a permutation sorted by the comparator, which `mergeSort` also
provides. -/
def GetTunnels (reg : Registry) : List TunnelInfo :=
  (reg.map (fun p => p.2.toInfo)).mergeSort newestFirst

/-- `App.isPortInUse` (app.go 912-923): a port collides when some tunnel in
state running/starting holds it. -/
def isPortInUse (reg : Registry) (port : Nat) : Bool :=
  reg.any (fun p => p.2.localPort == port && isActiveStatus p.2)

/-- One OS probe of `net.Listen("tcp", "127.0.0.1:0")`: attempt index ↦ the
ephemeral port the OS assigned, or `none` for a bind error. -/
abbrev OsListen := Nat → Option Nat

/-- The attempt loop of `App.GetFreePort` (app.go 893-910), with the
remaining attempt budget (10 at entry) as the recursion fuel and the attempt
index threaded for the OS probe. -/
def getFreePortAux (reg : Registry) (osListen : OsListen) :
    Nat → Nat → Except String Nat
  | 0, _ => .error "failed to find free port after multiple attempts"
  | n + 1, attempt =>
    match osListen attempt with
    | none => .error "listen failed"
    | some port =>
      if isPortInUse reg port then getFreePortAux reg osListen n (attempt + 1)
      else .ok port

/-- `App.GetFreePort`: up to 10 probes for an OS-assigned port not held by a
live tunnel. -/
def GetFreePort (reg : Registry) (osListen : OsListen) : Except String Nat :=
  getFreePortAux reg osListen 10 0

/-- Everything `StartTunnelWithRemotePort` reads from outside the registry:
the OS ephemeral-port probe, the bind-availability test on a concrete port,
the two renderings of `time.Now()` (nanosecond ID suffix and formatted start
time), and whether a token source is present. -/
structure StartEnv where
  osListen : OsListen
  bindOk : Nat → Bool
  nowNano : Nat
  nowStr : String
  authenticated : Bool

/-- The error outcomes of `StartTunnelWithRemotePort`, one constructor per
`fmt.Errorf` site (app.go 982-1014). -/
inductive StartError where
  | notAuthenticated : StartError
  | freePortFailed (inner : String) : StartError
  | portInUseSuggest (requested suggested : Nat) : StartError
  | portInUseNoAlt (requested : Nat) (inner : String) : StartError
  | portUnavailable (port : Nat) : StartError
deriving Repr, DecidableEq

/-- The message each `StartError` renders to, mirroring the `fmt.Errorf`
format strings. -/
def startErrorMsg : StartError → String
  | .notAuthenticated => "not authenticated"
  | .freePortFailed inner => "failed to find free port: " ++ inner
  | .portInUseSuggest requested suggested =>
    "port " ++ toString requested ++
      " is in use by another tunnel. Suggested alternative: " ++
      toString suggested
  | .portInUseNoAlt requested inner =>
    "port " ++ toString requested ++
      " is in use by another tunnel, and failed to find alternative: " ++ inner
  | .portUnavailable port =>
    "port " ++ toString port ++ " is not available"

/-- Port resolution of `StartTunnelWithRemotePort` (app.go 990-1007):
`localPort == 0` auto-allocates; a nonzero port colliding with a live tunnel
fails fast, attaching a freshly allocated suggestion when one is found. -/
def resolveLocalPort (reg : Registry) (osListen : OsListen) (localPort : Nat) :
    Except StartError Nat :=
  if localPort == 0 then
    match GetFreePort reg osListen with
    | .error e => .error (.freePortFailed e)
    | .ok p => .ok p
  else if isPortInUse reg localPort then
    match GetFreePort reg osListen with
    | .error e => .error (.portInUseNoAlt localPort e)
    | .ok freePort => .error (.portInUseSuggest localPort freePort)
  else .ok localPort

/-- `App.StartTunnelWithRemotePort` (app.go 981-1041): authentication check,
port resolution, bind-availability test, then registration of the session in
state "starting" (the accept loop itself runs asynchronously afterwards).
Returns the snapshot and the updated registry. -/
def StartTunnelWithRemotePort (reg : Registry) (env : StartEnv)
    (projectID vmName zone : String) (localPort remotePort : Nat) :
    Except StartError TunnelInfo × Registry :=
  if !env.authenticated then (.error .notAuthenticated, reg)
  else
    let tunnelID := projectID ++ "-" ++ vmName ++ "-" ++ zone ++ "-" ++
      toString env.nowNano
    match resolveLocalPort reg env.osListen localPort with
    | .error e => (.error e, reg)
    | .ok port =>
      if !env.bindOk port then (.error (.portUnavailable port), reg)
      else
        let t : Tunnel :=
          { id := tunnelID
            projectID := projectID
            vmName := vmName
            zone := zone
            localPort := port
            remotePort := remotePort
            status := "starting"
            startedAt := env.nowStr
            logs := []
            bookmarkID := "" }
        (.ok t.toInfo, reg ++ [(tunnelID, t)])

/-- The `windowsPasswordResponse` struct (app.go 201-208): one decoded JSON
object found in the serial-port output. -/
structure windowsPasswordResponse where
  modulus : String
  userName : String
  passwordFound : Bool
  encryptedPassword : String
  errorMessage : String
deriving Repr, DecidableEq

/-- RSA-OAEP decryption with the request's private key
(`decryptWindowsPassword`, app.go 1722-1736): an external cryptographic
collaborator, passed as a function. -/
abbrev Decrypt := String → Except String String

/-- The inner match loop of `pollForWindowsPassword` (app.go 1689-1710),
over the decoded password-response objects of one serial-output poll, in
order.  A response matching the published modulus with a non-empty encrypted
payload is decrypted and returned (a decryption failure is returned as an
error); a matching response carrying an error message terminates with that
message; everything else is skipped.  `none` means this poll found nothing. -/
def scanResponses (decrypt : Decrypt) (expectedModulus : String) :
    List windowsPasswordResponse → Option (Except String String)
  | [] => none
  | r :: rs =>
    if r.modulus == expectedModulus && r.encryptedPassword != "" then
      some (match decrypt r.encryptedPassword with
        | .ok p => .ok p
        | .error e => .error ("failed to decrypt password: " ++ e))
    else if r.modulus == expectedModulus && r.errorMessage != "" then
      some (.error ("guest agent error: " ++ r.errorMessage))
    else scanResponses decrypt expectedModulus rs

/-- One serial-port read (`GetSerialPortOutput`, port 4) at a given elapsed
time: `none` is a read error, otherwise the decoded password-response
objects found in the returned contents, in order. -/
abbrev SerialReads := Nat → Option (List windowsPasswordResponse)

/-- The timeout message of `pollForWindowsPassword`. -/
def pollTimeoutMsg : String :=
  "timeout waiting for Windows guest agent response. Ensure the VM is running and has the guest agent installed."

/-- The poll loop of `pollForWindowsPassword` (app.go 1671-1720), measured in
seconds of elapsed budget.  Each iteration with `elapsed < 90` reads the
serial output; a read error sleeps the current interval and retries without
touching the interval (the Go `continue` skips the backoff increment); a
successful read is scanned, and when nothing matches the loop sleeps the
current interval and then bumps it by 1 up to the ceiling of 5.  The fuel is
an upper bound on iterations; the entry point supplies 90, which is never
exhausted (each iteration advances `elapsed` by at least 1). -/
def pollLoop (decrypt : Decrypt) (expectedModulus : String)
    (reads : SerialReads) : Nat → Nat → Nat → Except String String
  | 0, _, _ => .error pollTimeoutMsg
  | fuel + 1, elapsed, interval =>
    if elapsed < 90 then
      match reads elapsed with
      | none => pollLoop decrypt expectedModulus reads fuel
          (elapsed + interval) interval
      | some rs =>
        match scanResponses decrypt expectedModulus rs with
        | some outcome => outcome
        | none => pollLoop decrypt expectedModulus reads fuel
            (elapsed + interval)
            (if interval < 5 then interval + 1 else interval)
    else .error pollTimeoutMsg

/-- `App.pollForWindowsPassword`: 90-second budget, initial 2-second
interval. -/
def pollForWindowsPassword (decrypt : Decrypt) (expectedModulus : String)
    (reads : SerialReads) : Except String String :=
  pollLoop decrypt expectedModulus reads 90 0 2

/-- The sequence of sleep durations the poll loop executes, mirroring
`pollLoop` step by step (`time.Sleep(interval)` happens on the read-error
path and on the nothing-found path; finding an outcome returns without
sleeping). -/
def pollSleeps (decrypt : Decrypt) (expectedModulus : String)
    (reads : SerialReads) : Nat → Nat → Nat → List Nat
  | 0, _, _ => []
  | fuel + 1, elapsed, interval =>
    if elapsed < 90 then
      match reads elapsed with
      | none => interval :: pollSleeps decrypt expectedModulus reads fuel
          (elapsed + interval) interval
      | some rs =>
        match scanResponses decrypt expectedModulus rs with
        | some _ => []
        | none => interval :: pollSleeps decrypt expectedModulus reads fuel
            (elapsed + interval)
            (if interval < 5 then interval + 1 else interval)
    else []

/-- A `compute.MetadataItems` entry: key and (optional pointer) value. -/
structure MetadataItems where
  key : String
  value : Option String
deriving Repr, DecidableEq

/-- The find-and-replace pass over `metadata.Items` in
`GenerateWindowsPassword` (app.go 1577-1585): replace the value of the first
"windows-keys" item, reporting whether one was found. -/
def replaceWindowsKeys (v : String) :
    List MetadataItems → List MetadataItems × Bool
  | [] => ([], false)
  | item :: rest =>
    if item.key == "windows-keys" then
      ({ item with value := some v } :: rest, true)
    else
      let (rest', found) := replaceWindowsKeys v rest
      (item :: rest', found)

/-- The full read-modify step on the fetched metadata items (app.go
1571-1591): replace the first "windows-keys" entry if present, append a new
one otherwise.  A nil `instance.Metadata` is the empty item list. -/
def updateWindowsKeys (items : List MetadataItems) (v : String) :
    List MetadataItems :=
  let (items', found) := replaceWindowsKeys v items
  if found then items'
  else items ++ [{ key := "windows-keys", value := some v }]

/-- The 16 lowercase hex digits used by `hex.EncodeToString`. -/
def hexDigitChars : List Char :=
  String.toList "0123456789abcdef"

/-- One hex digit character (defined for n < 16). -/
def hexChar (n : Nat) : Char :=
  hexDigitChars.getD n '0'

/-- `hex.EncodeToString`: two lowercase hex characters per byte, high nibble
first. -/
def hexEncode (bytes : List (Fin 256)) : List Char :=
  bytes.foldr (fun b acc => hexChar (b.val / 16) :: hexChar (b.val % 16) :: acc) []

/-- The per-character digit mapping of `GenerateBookmarkID` (app.go
1272-1280): decimal digits pass through, any other byte c becomes the byte
`'0' + (c - 'a')` (byte arithmetic wraps mod 256; on the hex alphabet this
sends a..f to 0..5 without wrapping). -/
def toNumericChar (c : Char) : Char :=
  if '0' ≤ c ∧ c ≤ '9' then c
  else Char.ofNat (('0'.toNat + ((c.toNat + 256 - 'a'.toNat) % 256)) % 256)

/-- The accumulation loop of `GenerateBookmarkID`: walk the hex characters,
appending mapped digits while fewer than 7 have been collected. -/
def buildNumericID : List Char → List Char → List Char
  | [], acc => acc
  | c :: cs, acc =>
    if acc.length < 7 then buildNumericID cs (acc ++ [toNumericChar c])
    else acc

/-- The final padding loop of `GenerateBookmarkID`: append '0' until the ID
has 7 characters. -/
def padTo7 (cs : List Char) : List Char :=
  cs ++ List.replicate (7 - cs.length) '0'

/-- `App.GenerateBookmarkID` (app.go 1260-1286).  SHA-256 is an external
collaborator supplied as a byte-sequence function; the code hashes
"projectID:vmName:zone", hex-encodes the first 8 bytes, maps the 16 hex
characters to decimal digits, keeps the first 7 and pads with '0'. -/
def GenerateBookmarkID (sha256Bytes : String → List (Fin 256))
    (projectID vmName zone : String) : String :=
  let data := projectID ++ ":" ++ vmName ++ ":" ++ zone
  let hashHex := hexEncode ((sha256Bytes data).take 8)
  let numericID := buildNumericID hashHex []
  String.mk (padTo7 numericID)

/-! Concrete fixtures used to evaluate the theorems below on closed inputs. -/

/-- A running session holding local port 5000. -/
def tRunning : Tunnel :=
  { id := "a"
    projectID := "p"
    vmName := "v"
    zone := "z"
    localPort := 5000
    remotePort := 3389
    status := "running"
    startedAt := "2026-01-01T00:00:00Z"
    logs := []
    bookmarkID := "" }

/-- A session that ended in state "error". -/
def tError : Tunnel :=
  { tRunning with id := "e", status := "error", localPort := 5001 }

/-- A session already in state "stopped". -/
def tStopped : Tunnel :=
  { tRunning with id := "s", status := "stopped", localPort := 5002 }

/-- Registry holding one errored and one stopped session. -/
def regTerm : Registry := [("e", tError), ("s", tStopped)]

/-- Registry holding one running session on port 5000. -/
def regRun : Registry := [("a", tRunning)]

/-- Environment whose OS ephemeral-port probe always yields the in-use
port 5000. -/
def envAllBusy : StartEnv :=
  { osListen := fun _ => some 5000
    bindOk := fun _ => true
    nowNano := 1
    nowStr := "2026-01-01T00:00:00Z"
    authenticated := true }

/-- Environment whose OS ephemeral-port probe yields the free port 6000. -/
def envFree : StartEnv :=
  { envAllBusy with osListen := fun _ => some 6000 }

/-- A decryption stub returning the ciphertext unchanged. -/
def decryptId : Decrypt := fun s => .ok s

/-- A response published under modulus "M" carrying an encrypted payload. -/
def respM : windowsPasswordResponse :=
  { modulus := "M"
    userName := "u"
    passwordFound := true
    encryptedPassword := "ENC"
    errorMessage := "" }

/-- Serial reads that always return the single matching response. -/
def readsM : SerialReads := fun _ => some [respM]

/-- Serial reads that always succeed but contain no responses. -/
def readsEmpty : SerialReads := fun _ => some []

/-- Serial reads that always fail. -/
def readsFail : SerialReads := fun _ => none

/-- The sleep schedule the poll loop would follow if every serial read
succeeded and matched nothing: the pure backoff recurrence (start 2,
increment 1 up to the ceiling 5) cut off at the 90-second budget.  This is a
specification-side rendering of the claimed schedule, compared against
`pollSleeps` in the theorems. -/
def scheduleSleeps : Nat → Nat → Nat → List Nat
  | 0, _, _ => []
  | fuel + 1, elapsed, interval =>
    if elapsed < 90 then
      interval :: scheduleSleeps fuel (elapsed + interval)
        (if interval < 5 then interval + 1 else interval)
    else []

/-- The sleep schedule the poll loop follows when every serial read fails:
the interval is never incremented, so each sleep equals the initial
interval.  Specification-side rendering compared against `pollSleeps`. -/
def failSleeps : Nat → Nat → Nat → List Nat
  | 0, _, _ => []
  | fuel + 1, elapsed, interval =>
    if elapsed < 90 then
      interval :: failSleeps fuel (elapsed + interval) interval
    else []

/-- A metadata document with one unrelated entry and one "windows-keys"
entry. -/
def itemsW : List MetadataItems :=
  [{ key := "ssh-keys", value := some "K" },
   { key := "windows-keys", value := some "OLD" }]

/-- An all-zero stand-in for the SHA-256 collaborator. -/
def zeroHash : String → List (Fin 256) := fun _ => List.replicate 32 0

/-! ## Theorems -/

theorem appendBounded_length_le (logs : List String) (e : String)
    (h : logs.length ≤ 100) : (appendBounded logs e).length ≤ 100 := by
  simp only [appendBounded]
  split
  · simp only [List.length_drop, List.length_append, List.length_cons,
      List.length_nil]
    omega
  · rename_i hle
    simp only [List.length_append, List.length_cons, List.length_nil] at *
    omega

theorem foldl_appendBounded : ∀ (es acc : List String), acc.length ≤ 100 →
    es.foldl appendBounded acc = (acc ++ es).drop ((acc ++ es).length - 100)
  | [], acc, h => by
    simp [Nat.sub_eq_zero_of_le h]
  | e :: es, acc, h => by
    rw [List.foldl_cons,
      foldl_appendBounded es (appendBounded acc e)
        (appendBounded_length_le acc e h)]
    by_cases hlen : acc.length + 1 ≤ 100
    · have hab : appendBounded acc e = acc ++ [e] := by
        simp only [appendBounded]
        rw [if_neg]
        simp only [List.length_append, List.length_cons, List.length_nil]
        omega
      rw [hab, List.append_assoc]
      rfl
    · have hacc : acc.length = 100 := by omega
      have h101 : (acc ++ [e]).length = 101 := by
        simp [List.length_append, hacc]
      have hab : appendBounded acc e = (acc ++ [e]).drop 1 := by
        simp only [appendBounded]
        rw [if_pos]
        · rw [h101]
        · rw [h101]; omega
      have hsplit2 : ((acc ++ [e]) ++ es).drop 1 = (acc ++ [e]).drop 1 ++ es :=
        List.drop_append_of_le_length (by rw [h101]; omega)
      rw [hab, ← hsplit2, List.drop_drop]
      have hsplit : acc ++ e :: es = (acc ++ [e]) ++ es := by
        rw [List.append_assoc]; rfl
      rw [hsplit]
      congr 1
      simp only [List.length_drop, List.length_append, List.length_cons,
        List.length_nil, h101]
      omega

/-- C3 — Log ring-buffer bound: folding any sequence of timestamped log
appends into a session that starts with an empty log leaves exactly the most
recent 100 formatted entries, in order; the length is `min N 100` and so
never exceeds 100. -/
theorem addLog_ring_buffer (t : Tunnel) (msgs : List (String × String)) :
    (msgs.foldl (fun u q => addLog q.1 q.2 u) { t with logs := [] }).logs =
      (msgs.map (fun q => "[" ++ q.1 ++ "] " ++ q.2)).drop (msgs.length - 100) ∧
    (msgs.foldl (fun u q => addLog q.1 q.2 u) { t with logs := [] }).logs.length =
      min msgs.length 100 := by
  have hlogs : ∀ (ms : List (String × String)) (u : Tunnel),
      (ms.foldl (fun w q => addLog q.1 q.2 w) u).logs =
        (ms.map (fun q => "[" ++ q.1 ++ "] " ++ q.2)).foldl appendBounded u.logs := by
    intro ms
    induction ms with
    | nil => intro u; rfl
    | cons q ms ih =>
      intro u
      rw [List.foldl_cons, ih, List.map_cons, List.foldl_cons]
      rfl
  constructor
  · rw [hlogs]
    have := foldl_appendBounded
      (msgs.map (fun q => "[" ++ q.1 ++ "] " ++ q.2)) [] (by simp)
    simpa using this
  · rw [hlogs]
    have := foldl_appendBounded
      (msgs.map (fun q => "[" ++ q.1 ++ "] " ++ q.2)) [] (by simp)
    simp only [List.nil_append] at this
    rw [this]
    simp only [List.length_drop, List.length_map]
    omega

/-- C10 — ClearStopped postcondition: the removed count plus the surviving
count equals the original count, survivors are a sublist (order and entries
preserved), and an entry survives exactly when it was present and its status
is neither "stopped" nor "error". -/
theorem clearStoppedTunnels_postcondition (reg : Registry) :
    (ClearStoppedTunnels reg).1 + (ClearStoppedTunnels reg).2.length = reg.length ∧
    (ClearStoppedTunnels reg).2.Sublist reg ∧
    (∀ p : String × Tunnel, p ∈ (ClearStoppedTunnels reg).2 ↔
      p ∈ reg ∧ p.2.status ≠ "stopped" ∧ p.2.status ≠ "error") := by
  have key : ∀ (p : (String × Tunnel) → Bool) (l : List (String × Tunnel)),
      l.countP p + (l.filter (fun a => !(p a))).length = l.length := by
    intro p l
    induction l with
    | nil => rfl
    | cons a l ih =>
      simp only [List.countP_cons, List.filter_cons]
      cases h : p a <;> simp [h] <;> omega
  refine ⟨?_, ?_, ?_⟩
  · exact key (fun q => q.2.status == "stopped" || q.2.status == "error") reg
  · exact List.filter_sublist _
  · intro p
    simp only [ClearStoppedTunnels, List.mem_filter, Bool.not_eq_true',
      Bool.or_eq_false_iff, beq_eq_false_iff_ne, ne_eq]

theorem find?_map_stop (reg : Registry) (tunnelID : String) :
    (reg.map (fun p =>
        if p.1 == tunnelID then (p.1, stopTunnelInternal p.2) else p)).find?
      (fun p => p.1 == tunnelID) =
    (reg.find? (fun p => p.1 == tunnelID)).map
      (fun p => (p.1, stopTunnelInternal p.2)) := by
  induction reg with
  | nil => rfl
  | cons q reg ih =>
    cases hq : (q.1 == tunnelID) with
    | false =>
      have hhead :
          (if q.1 == tunnelID then (q.1, stopTunnelInternal q.2) else q) = q := by
        rw [hq]; rfl
      rw [List.map_cons, hhead, List.find?_cons_of_neg _ (by rw [hq]; exact Bool.false_ne_true),
        List.find?_cons_of_neg _ (by rw [hq]; exact Bool.false_ne_true), ih]
    | true =>
      have hhead :
          (if q.1 == tunnelID then (q.1, stopTunnelInternal q.2) else q) =
            (q.1, stopTunnelInternal q.2) := by
        rw [hq]; rfl
      have hfm : List.find? (fun p : String × Tunnel => p.1 == tunnelID)
          ((q.1, stopTunnelInternal q.2) ::
            reg.map (fun p =>
              if p.1 == tunnelID then (p.1, stopTunnelInternal p.2) else p)) =
          some (q.1, stopTunnelInternal q.2) := List.find?_cons_of_pos _ hq
      have hfq : List.find? (fun p : String × Tunnel => p.1 == tunnelID)
          (q :: reg) = some q := List.find?_cons_of_pos _ hq
      rw [List.map_cons, hhead, hfm, hfq, Option.map_some']

theorem find?_some_of_findTunnel (reg : Registry) (tunnelID : String)
    (t : Tunnel) (h : findTunnel reg tunnelID = some t) :
    ∃ q, reg.find? (fun p => p.1 == tunnelID) = some q ∧ q.2 = t := by
  unfold findTunnel at h
  cases hfind : reg.find? (fun p => p.1 == tunnelID) with
  | none => rw [hfind] at h; simp at h
  | some q =>
    rw [hfind] at h
    exact ⟨q, rfl, by simpa using h⟩

theorem stopTunnel_of_found (reg : Registry) (tunnelID : String)
    (q : String × Tunnel)
    (hq : reg.find? (fun p => p.1 == tunnelID) = some q) :
    (StopTunnel reg tunnelID).1 = .ok () ∧
    tunnelStatus (StopTunnel reg tunnelID).2 tunnelID = some "stopped" := by
  have hst : StopTunnel reg tunnelID =
      (.ok (), reg.map (fun p =>
        if p.1 == tunnelID then (p.1, stopTunnelInternal p.2) else p)) := by
    unfold StopTunnel
    rw [hq]
  rw [hst]
  refine ⟨rfl, ?_⟩
  unfold tunnelStatus findTunnel
  rw [find?_map_stop, hq]
  rfl

/-- C5 — Idempotent stop: for a registered ID, two consecutive StopTunnel
calls both return success and leave the session's status "stopped"; for an
unknown ID, StopTunnel returns the "tunnel not found" error and the registry
is unchanged. -/
theorem stopTunnel_idempotent (reg : Registry) (tunnelID : String) :
    ((findTunnel reg tunnelID).isSome = true →
      (StopTunnel reg tunnelID).1 = .ok () ∧
      tunnelStatus (StopTunnel reg tunnelID).2 tunnelID = some "stopped" ∧
      (StopTunnel (StopTunnel reg tunnelID).2 tunnelID).1 = .ok () ∧
      tunnelStatus (StopTunnel (StopTunnel reg tunnelID).2 tunnelID).2 tunnelID =
        some "stopped") ∧
    (findTunnel reg tunnelID = none →
      StopTunnel reg tunnelID = (.error "tunnel not found", reg)) := by
  constructor
  · intro hsome
    obtain ⟨q, hq⟩ : ∃ q, reg.find? (fun p => p.1 == tunnelID) = some q := by
      unfold findTunnel at hsome
      cases hfind : reg.find? (fun p => p.1 == tunnelID)
      · rw [hfind] at hsome; simp at hsome
      · exact ⟨_, rfl⟩
    obtain ⟨h1, h2⟩ := stopTunnel_of_found reg tunnelID q hq
    have hreg1 : (StopTunnel reg tunnelID).2 =
        reg.map (fun p =>
          if p.1 == tunnelID then (p.1, stopTunnelInternal p.2) else p) := by
      simp [StopTunnel, hq]
    have hq1 : (StopTunnel reg tunnelID).2.find? (fun p => p.1 == tunnelID) =
        some (q.1, stopTunnelInternal q.2) := by
      rw [hreg1, find?_map_stop, hq, Option.map_some']
    obtain ⟨h3, h4⟩ :=
      stopTunnel_of_found (StopTunnel reg tunnelID).2 tunnelID
        (q.1, stopTunnelInternal q.2) hq1
    exact ⟨h1, h2, h3, h4⟩
  · intro hnone
    have hfind : reg.find? (fun p => p.1 == tunnelID) = none := by
      unfold findTunnel at hnone
      cases hfind : reg.find? (fun p => p.1 == tunnelID)
      · rfl
      · rw [hfind] at hnone; simp at hnone
    simp [StopTunnel, hfind]

/-- Witness for C5 at a concrete registry: port-5000 session "a" is found,
stopped twice with success, and an unknown ID fails with "tunnel not
found". -/
theorem stopTunnel_idempotent_witness :
    (findTunnel regRun "a").isSome = true ∧
    ((StopTunnel regRun "a").1 = .ok () ∧
      tunnelStatus (StopTunnel regRun "a").2 "a" = some "stopped" ∧
      (StopTunnel (StopTunnel regRun "a").2 "a").1 = .ok () ∧
      tunnelStatus (StopTunnel (StopTunnel regRun "a").2 "a").2 "a" =
        some "stopped") ∧
    StopTunnel regRun "nope" = (.error "tunnel not found", regRun) :=
  ⟨rfl, (stopTunnel_idempotent regRun "a").1 rfl,
    (stopTunnel_idempotent regRun "nope").2 rfl⟩

/-- C1 counterexample: in a registry whose session "e" is in state "error",
StopTunnel succeeds and changes that session's state to "stopped" — so a
session in state "error" does later have state "stopped", contradicting the
claim that no manager operation changes a terminal state. -/
theorem stopTunnel_error_to_stopped_cex :
    tunnelStatus regTerm "e" = some "error" ∧
    (StopTunnel regTerm "e").1 = .ok () ∧
    tunnelStatus (StopTunnel regTerm "e").2 "e" = some "stopped" :=
  ⟨rfl, rfl, rfl⟩

/-- C1 amended — terminal states under the manager's operations:
StopAllTunnels and shutdown leave every "stopped"/"error" session entry
untouched, and the accept-loop completion leaves a "stopped" session's state
unchanged; StopTunnel, however, returns success on a terminal session and
(re)sets its state to "stopped" — a no-op for "stopped" sessions but a
genuine "error" → "stopped" transition, the one departure from the claimed
immutability. -/
theorem terminal_state_transitions (reg : Registry) (tunnelID ts : String) :
    (∀ (i : Nat) (p : String × Tunnel), reg[i]? = some p →
      p.2.status = "stopped" ∨ p.2.status = "error" →
      (StopAllTunnels reg).2[i]? = some p ∧ (shutdownTunnels reg)[i]? = some p) ∧
    (∀ t : Tunnel, findTunnel reg tunnelID = some t →
      t.status = "stopped" ∨ t.status = "error" →
      (StopTunnel reg tunnelID).1 = .ok () ∧
      tunnelStatus (StopTunnel reg tunnelID).2 tunnelID = some "stopped") ∧
    (∀ t : Tunnel, t.status = "stopped" →
      (acceptLoopComplete ts t).status = t.status) := by
  refine ⟨?_, ?_, ?_⟩
  · intro i p hp hterm
    have hact : isActiveStatus p.2 = false := by
      rcases hterm with h | h <;> simp [isActiveStatus, h]
    constructor
    · simp [StopAllTunnels, List.getElem?_map, hp, hact]
    · simp [shutdownTunnels, List.getElem?_map, hp, hact]
  · intro t hfind _
    obtain ⟨q, hq, _⟩ := find?_some_of_findTunnel reg tunnelID t hfind
    exact stopTunnel_of_found reg tunnelID q hq
  · intro t h
    simp [acceptLoopComplete, addLog, h]

/-- Witness for the amended C1 at the concrete registry `regTerm`:
the errored entry survives StopAllTunnels and shutdown untouched, the
stopped session "s" is stopped again with success, and the accept-loop
completion keeps "stopped". -/
theorem terminal_state_transitions_witness :
    regTerm[0]? = some ("e", tError) ∧
    (StopAllTunnels regTerm).2[0]? = some ("e", tError) ∧
    (shutdownTunnels regTerm)[0]? = some ("e", tError) ∧
    ((StopTunnel regTerm "s").1 = .ok () ∧
      tunnelStatus (StopTunnel regTerm "s").2 "s" = some "stopped") ∧
    (acceptLoopComplete "12:00:00" tStopped).status = tStopped.status := by
  have h1 := (terminal_state_transitions regTerm "s" "12:00:00").1 0
    ("e", tError) rfl (Or.inr rfl)
  have h2 := (terminal_state_transitions regTerm "s" "12:00:00").2.1 tStopped
    rfl (Or.inl rfl)
  have h3 := (terminal_state_transitions regTerm "s" "12:00:00").2.2 tStopped rfl
  exact ⟨rfl, h1.1, h1.2, h2, h3⟩

/-- C8 — List ordering and snapshot: GetTunnels returns exactly one `toInfo`
snapshot per registry entry (a permutation of the snapshot list), pairwise
ordered by the start-time key descending (so the most recently created
session is first), and each snapshot is a pure copy of the session's fields
(in particular its log list). -/
theorem getTunnels_sorted_snapshot (reg : Registry) :
    (GetTunnels reg).Perm (reg.map (fun p => p.2.toInfo)) ∧
    (GetTunnels reg).Pairwise (fun a b => b.startedAt ≤ a.startedAt) ∧
    (∀ t : Tunnel, t.toInfo.logs = t.logs ∧ t.toInfo.startedAt = t.startedAt ∧
      t.toInfo.status = t.status ∧ t.toInfo.id = t.id ∧
      t.toInfo.localPort = t.localPort) := by
  refine ⟨List.mergeSort_perm _ _, ?_, fun t => ⟨rfl, rfl, rfl, rfl, rfl⟩⟩
  have hs := @List.sorted_mergeSort TunnelInfo newestFirst
    (fun a b c h1 h2 => by
      simp only [newestFirst, decide_eq_true_eq] at *
      exact le_trans h2 h1)
    (fun a b => by
      simp only [newestFirst, Bool.or_eq_true, decide_eq_true_eq]
      exact le_total b.startedAt a.startedAt)
    (reg.map (fun p => p.2.toInfo))
  exact hs.imp (fun h => by simpa [newestFirst] using h)

theorem scanResponses_cons (d : Decrypt) (m : String)
    (r : windowsPasswordResponse) (rs : List windowsPasswordResponse) :
    scanResponses d m (r :: rs) =
      if r.modulus == m && r.encryptedPassword != "" then
        some (match d r.encryptedPassword with
          | .ok p => .ok p
          | .error e => .error ("failed to decrypt password: " ++ e))
      else if r.modulus == m && r.errorMessage != "" then
        some (.error ("guest agent error: " ++ r.errorMessage))
      else scanResponses d m rs := rfl

theorem bool_ne_true {b : Bool} (h : b = false) : ¬ b = true := by
  rw [h]
  exact Bool.false_ne_true

theorem scanResponses_filter (d : Decrypt) (m : String)
    (rs : List windowsPasswordResponse) :
    scanResponses d m (rs.filter (fun r => r.modulus == m)) =
      scanResponses d m rs := by
  induction rs with
  | nil => rfl
  | cons r rs ih =>
    rw [List.filter_cons]
    by_cases hm : (r.modulus == m) = true
    · rw [if_pos hm, scanResponses_cons, scanResponses_cons]
      by_cases h1 : (r.modulus == m && r.encryptedPassword != "") = true
      · rw [if_pos h1, if_pos h1]
      · rw [if_neg h1, if_neg h1]
        by_cases h2 : (r.modulus == m && r.errorMessage != "") = true
        · rw [if_pos h2, if_pos h2]
        · rw [if_neg h2, if_neg h2, ih]
    · have hm' : (r.modulus == m) = false := Bool.eq_false_iff.mpr hm
      have h1 : (r.modulus == m && r.encryptedPassword != "") = false := by
        rw [hm']; rfl
      have h2 : (r.modulus == m && r.errorMessage != "") = false := by
        rw [hm']; rfl
      rw [if_neg hm, ih, scanResponses_cons, if_neg (bool_ne_true h1),
        if_neg (bool_ne_true h2)]

theorem scanResponses_ok (d : Decrypt) (m : String) (pw : String) :
    ∀ rs : List windowsPasswordResponse,
      scanResponses d m rs = some (.ok pw) →
      ∃ r ∈ rs, r.modulus = m ∧ r.encryptedPassword ≠ "" ∧
        d r.encryptedPassword = .ok pw
  | [], h => Option.noConfusion h
  | r :: rs, h => by
    rw [scanResponses_cons] at h
    by_cases h1 : (r.modulus == m && r.encryptedPassword != "") = true
    · rw [if_pos h1] at h
      obtain ⟨hmod, henc⟩ := Bool.and_eq_true_iff.mp h1
      refine ⟨r, List.mem_cons_self r rs, eq_of_beq hmod, bne_iff_ne.mp henc, ?_⟩
      cases hd : d r.encryptedPassword with
      | ok p =>
        rw [hd] at h
        exact Option.some.inj h
      | error e =>
        rw [hd] at h
        have h' : (Except.error ("failed to decrypt password: " ++ e) :
            Except String String) = .ok pw := Option.some.inj h
        exact Except.noConfusion h'
    · rw [if_neg h1] at h
      by_cases h2 : (r.modulus == m && r.errorMessage != "") = true
      · rw [if_pos h2] at h
        exact Except.noConfusion (Option.some.inj h)
      · rw [if_neg h2] at h
        obtain ⟨r', hr', hrest⟩ := scanResponses_ok d m pw rs h
        exact ⟨r', List.mem_cons_of_mem r hr', hrest⟩

theorem pollLoop_zero (d : Decrypt) (m : String) (reads : SerialReads)
    (elapsed interval : Nat) :
    pollLoop d m reads 0 elapsed interval = .error pollTimeoutMsg := rfl

theorem pollLoop_succ (d : Decrypt) (m : String) (reads : SerialReads)
    (fuel elapsed interval : Nat) :
    pollLoop d m reads (fuel + 1) elapsed interval =
      if elapsed < 90 then
        match reads elapsed with
        | none => pollLoop d m reads fuel (elapsed + interval) interval
        | some rs =>
          match scanResponses d m rs with
          | some outcome => outcome
          | none => pollLoop d m reads fuel (elapsed + interval)
              (if interval < 5 then interval + 1 else interval)
      else .error pollTimeoutMsg := rfl

theorem pollSleeps_succ (d : Decrypt) (m : String) (reads : SerialReads)
    (fuel elapsed interval : Nat) :
    pollSleeps d m reads (fuel + 1) elapsed interval =
      if elapsed < 90 then
        match reads elapsed with
        | none => interval :: pollSleeps d m reads fuel
            (elapsed + interval) interval
        | some rs =>
          match scanResponses d m rs with
          | some _ => []
          | none => interval :: pollSleeps d m reads fuel (elapsed + interval)
              (if interval < 5 then interval + 1 else interval)
      else [] := rfl

theorem pollLoop_step_done (d : Decrypt) (m : String) (reads : SerialReads)
    (fuel elapsed interval : Nat) (he : ¬ elapsed < 90) :
    pollLoop d m reads (fuel + 1) elapsed interval = .error pollTimeoutMsg := by
  rw [pollLoop_succ, if_neg he]

theorem pollLoop_step_readfail (d : Decrypt) (m : String) (reads : SerialReads)
    (fuel elapsed interval : Nat) (he : elapsed < 90)
    (hr : reads elapsed = none) :
    pollLoop d m reads (fuel + 1) elapsed interval =
      pollLoop d m reads fuel (elapsed + interval) interval := by
  rw [pollLoop_succ, if_pos he, hr]

theorem pollLoop_step_found (d : Decrypt) (m : String) (reads : SerialReads)
    (fuel elapsed interval : Nat) (rs : List windowsPasswordResponse)
    (outcome : Except String String) (he : elapsed < 90)
    (hr : reads elapsed = some rs)
    (hs : scanResponses d m rs = some outcome) :
    pollLoop d m reads (fuel + 1) elapsed interval = outcome := by
  rw [pollLoop_succ, if_pos he, hr]
  show (match scanResponses d m rs with
    | some outcome => outcome
    | none => pollLoop d m reads fuel (elapsed + interval)
        (if interval < 5 then interval + 1 else interval)) = outcome
  rw [hs]

theorem pollLoop_step_nomatch (d : Decrypt) (m : String) (reads : SerialReads)
    (fuel elapsed interval : Nat) (rs : List windowsPasswordResponse)
    (he : elapsed < 90) (hr : reads elapsed = some rs)
    (hs : scanResponses d m rs = none) :
    pollLoop d m reads (fuel + 1) elapsed interval =
      pollLoop d m reads fuel (elapsed + interval)
        (if interval < 5 then interval + 1 else interval) := by
  rw [pollLoop_succ, if_pos he, hr]
  show (match scanResponses d m rs with
    | some outcome => outcome
    | none => pollLoop d m reads fuel (elapsed + interval)
        (if interval < 5 then interval + 1 else interval)) = _
  rw [hs]

theorem pollLoop_ok (d : Decrypt) (m : String) (reads : SerialReads) :
    ∀ (fuel elapsed interval : Nat) (pw : String),
      pollLoop d m reads fuel elapsed interval = .ok pw →
      ∃ t rs r, reads t = some rs ∧ r ∈ rs ∧ r.modulus = m ∧
        r.encryptedPassword ≠ "" ∧ d r.encryptedPassword = .ok pw
  | 0, elapsed, interval, pw, h => by
    rw [pollLoop_zero] at h
    exact Except.noConfusion h
  | fuel + 1, elapsed, interval, pw, h => by
    by_cases he : elapsed < 90
    · rcases hr : reads elapsed with _ | rs
      · rw [pollLoop_step_readfail d m reads fuel elapsed interval he hr] at h
        exact pollLoop_ok d m reads fuel (elapsed + interval) interval pw h
      · rcases hs : scanResponses d m rs with _ | outcome
        · rw [pollLoop_step_nomatch d m reads fuel elapsed interval rs he hr hs] at h
          exact pollLoop_ok d m reads fuel (elapsed + interval)
            (if interval < 5 then interval + 1 else interval) pw h
        · rw [pollLoop_step_found d m reads fuel elapsed interval rs outcome
            he hr hs] at h
          obtain ⟨r, hmem, hrest⟩ := scanResponses_ok d m pw rs (h ▸ hs)
          exact ⟨elapsed, rs, r, hr, hmem, hrest⟩
    · rw [pollLoop_step_done d m reads fuel elapsed interval he] at h
      exact Except.noConfusion h

theorem pollLoop_filter (d : Decrypt) (m : String) (reads : SerialReads) :
    ∀ (fuel elapsed interval : Nat),
      pollLoop d m
          (fun t => (reads t).map (fun rs => rs.filter (fun r => r.modulus == m)))
          fuel elapsed interval =
        pollLoop d m reads fuel elapsed interval
  | 0, elapsed, interval => by rw [pollLoop_zero, pollLoop_zero]
  | fuel + 1, elapsed, interval => by
    by_cases he : elapsed < 90
    · rcases hr : reads elapsed with _ | rs
      · have hF : (fun t =>
            (reads t).map (fun rs => rs.filter (fun r => r.modulus == m)))
              elapsed = none := by
          show (reads elapsed).map _ = none
          rw [hr]
          rfl
        rw [pollLoop_step_readfail d m _ fuel elapsed interval he hF,
          pollLoop_step_readfail d m reads fuel elapsed interval he hr]
        exact pollLoop_filter d m reads fuel (elapsed + interval) interval
      · have hF : (fun t =>
            (reads t).map (fun rs => rs.filter (fun r => r.modulus == m)))
              elapsed = some (rs.filter (fun r => r.modulus == m)) := by
          show (reads elapsed).map _ = _
          rw [hr]
          rfl
        rcases hs : scanResponses d m rs with _ | outcome
        · have hsF : scanResponses d m (rs.filter (fun r => r.modulus == m)) =
              none := by rw [scanResponses_filter, hs]
          rw [pollLoop_step_nomatch d m _ fuel elapsed interval _ he hF hsF,
            pollLoop_step_nomatch d m reads fuel elapsed interval rs he hr hs]
          exact pollLoop_filter d m reads fuel (elapsed + interval)
            (if interval < 5 then interval + 1 else interval)
        · have hsF : scanResponses d m (rs.filter (fun r => r.modulus == m)) =
              some outcome := by rw [scanResponses_filter, hs]
          rw [pollLoop_step_found d m _ fuel elapsed interval _ outcome he hF hsF,
            pollLoop_step_found d m reads fuel elapsed interval rs outcome
              he hr hs]
    · rw [pollLoop_step_done d m _ fuel elapsed interval he,
        pollLoop_step_done d m reads fuel elapsed interval he]

theorem pollLoop_fuel_stable (d : Decrypt) (m : String) (reads : SerialReads) :
    ∀ (f1 f2 elapsed interval : Nat), 1 ≤ interval →
      90 - elapsed ≤ f1 → 90 - elapsed ≤ f2 →
      pollLoop d m reads f1 elapsed interval =
        pollLoop d m reads f2 elapsed interval
  | 0, f2, elapsed, interval, _, h1, _ => by
    have he : ¬ elapsed < 90 := by omega
    cases f2 with
    | zero => rfl
    | succ f2 =>
      rw [pollLoop_zero, pollLoop_step_done d m reads f2 elapsed interval he]
  | f1 + 1, 0, elapsed, interval, _, _, h2 => by
    have he : ¬ elapsed < 90 := by omega
    rw [pollLoop_zero, pollLoop_step_done d m reads f1 elapsed interval he]
  | f1 + 1, f2 + 1, elapsed, interval, hi, h1, h2 => by
    by_cases he : elapsed < 90
    · rcases hr : reads elapsed with _ | rs
      · rw [pollLoop_step_readfail d m reads f1 elapsed interval he hr,
          pollLoop_step_readfail d m reads f2 elapsed interval he hr]
        exact pollLoop_fuel_stable d m reads f1 f2 (elapsed + interval)
          interval hi (by omega) (by omega)
      · rcases hs : scanResponses d m rs with _ | outcome
        · rw [pollLoop_step_nomatch d m reads f1 elapsed interval rs he hr hs,
            pollLoop_step_nomatch d m reads f2 elapsed interval rs he hr hs]
          refine pollLoop_fuel_stable d m reads f1 f2 (elapsed + interval)
            (if interval < 5 then interval + 1 else interval)
            ?_ (by omega) (by omega)
          split <;> omega
        · rw [pollLoop_step_found d m reads f1 elapsed interval rs outcome
            he hr hs,
            pollLoop_step_found d m reads f2 elapsed interval rs outcome
              he hr hs]
    · rw [pollLoop_step_done d m reads f1 elapsed interval he,
        pollLoop_step_done d m reads f2 elapsed interval he]

theorem pollLoop_timeout (d : Decrypt) (m : String) (reads : SerialReads)
    (hnm : ∀ t rs, reads t = some rs → scanResponses d m rs = none) :
    ∀ (fuel elapsed interval : Nat),
      pollLoop d m reads fuel elapsed interval = .error pollTimeoutMsg
  | 0, elapsed, interval => pollLoop_zero d m reads elapsed interval
  | fuel + 1, elapsed, interval => by
    by_cases he : elapsed < 90
    · rcases hr : reads elapsed with _ | rs
      · rw [pollLoop_step_readfail d m reads fuel elapsed interval he hr]
        exact pollLoop_timeout d m reads hnm fuel (elapsed + interval) interval
      · rw [pollLoop_step_nomatch d m reads fuel elapsed interval rs he hr
          (hnm elapsed rs hr)]
        exact pollLoop_timeout d m reads hnm fuel (elapsed + interval)
          (if interval < 5 then interval + 1 else interval)
    · exact pollLoop_step_done d m reads fuel elapsed interval he

theorem pollSleeps_step_nomatch (d : Decrypt) (m : String) (reads : SerialReads)
    (fuel elapsed interval : Nat) (rs : List windowsPasswordResponse)
    (he : elapsed < 90) (hr : reads elapsed = some rs)
    (hs : scanResponses d m rs = none) :
    pollSleeps d m reads (fuel + 1) elapsed interval =
      interval :: pollSleeps d m reads fuel (elapsed + interval)
        (if interval < 5 then interval + 1 else interval) := by
  rw [pollSleeps_succ, if_pos he, hr]
  show (match scanResponses d m rs with
    | some _ => ([] : List Nat)
    | none => interval :: pollSleeps d m reads fuel (elapsed + interval)
        (if interval < 5 then interval + 1 else interval)) = _
  rw [hs]

theorem pollSleeps_schedule (d : Decrypt) (m : String) (reads : SerialReads)
    (hok : ∀ t, ∃ rs, reads t = some rs ∧ scanResponses d m rs = none) :
    ∀ (fuel elapsed interval : Nat),
      pollSleeps d m reads fuel elapsed interval =
        scheduleSleeps fuel elapsed interval
  | 0, _, _ => rfl
  | fuel + 1, elapsed, interval => by
    by_cases he : elapsed < 90
    · obtain ⟨rs, hr, hs⟩ := hok elapsed
      rw [pollSleeps_step_nomatch d m reads fuel elapsed interval rs he hr hs,
        scheduleSleeps, if_pos he,
        pollSleeps_schedule d m reads hok fuel (elapsed + interval)
          (if interval < 5 then interval + 1 else interval)]
    · rw [pollSleeps_succ, if_neg he, scheduleSleeps, if_neg he]

theorem pollSleeps_readsFail (d : Decrypt) (m : String) :
    ∀ (fuel elapsed interval : Nat),
      pollSleeps d m readsFail fuel elapsed interval =
        failSleeps fuel elapsed interval
  | 0, _, _ => rfl
  | fuel + 1, elapsed, interval => by
    by_cases he : elapsed < 90
    · rw [pollSleeps_succ, if_pos he]
      show interval ::
          pollSleeps d m readsFail fuel (elapsed + interval) interval = _
      rw [failSleeps, if_pos he,
        pollSleeps_readsFail d m fuel (elapsed + interval) interval]
    · rw [pollSleeps_succ, if_neg he, failSleeps, if_neg he]

/-- C2 — Modulus matching: the poll loop returns a recovered secret only
when some read contains a response whose modulus equals the published one
and whose encrypted payload decrypts to that secret; and deleting every
response whose modulus differs from the published one from every read leaves
the loop's result unchanged — mismatched responses are never decrypted,
returned, or surfaced as errors. -/
theorem pollForWindowsPassword_modulus_matching (d : Decrypt) (m : String)
    (reads : SerialReads) :
    (∀ pw : String, pollForWindowsPassword d m reads = .ok pw →
      ∃ t rs r, reads t = some rs ∧ r ∈ rs ∧ r.modulus = m ∧
        r.encryptedPassword ≠ "" ∧ d r.encryptedPassword = .ok pw) ∧
    pollForWindowsPassword d m
        (fun t => (reads t).map (fun rs => rs.filter (fun r => r.modulus == m))) =
      pollForWindowsPassword d m reads := by
  constructor
  · intro pw h
    exact pollLoop_ok d m reads 90 0 2 pw h
  · exact pollLoop_filter d m reads 90 0 2

/-- Witness for C2: with an identity decrypt stub and reads that always
contain the single matching response `respM`, the loop returns its payload,
and the provenance conclusion holds at that input. -/
theorem pollForWindowsPassword_modulus_matching_witness :
    pollForWindowsPassword decryptId "M" readsM = .ok "ENC" ∧
    (∃ t rs r, readsM t = some rs ∧ r ∈ rs ∧ r.modulus = "M" ∧
      r.encryptedPassword ≠ "" ∧ decryptId r.encryptedPassword = .ok "ENC") :=
  ⟨rfl,
    (pollForWindowsPassword_modulus_matching decryptId "M" readsM).1 "ENC" rfl⟩

/-- C6 counterexample: when every serial read fails, the loop sleeps the
unchanged 2-second interval every time (45 sleeps of 2s) — not the claimed
2s, 3s, 4s, 5s, 5s, ... backoff, whose increment the code skips on a read
error. -/
theorem pollLoop_interval_not_incremented_cex :
    pollSleeps decryptId "M" readsFail 90 0 2 = List.replicate 45 2 ∧
    (pollSleeps decryptId "M" readsFail 90 0 2)[1]? = some 2 ∧
    (([2, 3, 4] ++ List.replicate 17 5 : List Nat))[1]? = some 3 :=
  ⟨by decide, by decide, by decide⟩

/-- C6 amended — Poll backoff schedule and budget: the loop's result is
independent of any fuel bound of at least 90 (the loop self-terminates
within the budget); when no read ever yields a matching response the loop
returns the timeout failure; when every read succeeds (and matches nothing)
the executed sleeps are exactly 2s, 3s, 4s and then 5s up to the 90-second
budget; but when reads fail, the interval is not incremented for those
polls — the all-failing case sleeps 2s forty-five times. -/
theorem pollLoop_backoff_budget (d : Decrypt) (m : String)
    (reads : SerialReads) :
    (∀ fuel : Nat, 90 ≤ fuel →
      pollLoop d m reads fuel 0 2 = pollForWindowsPassword d m reads) ∧
    ((∀ t rs, reads t = some rs → scanResponses d m rs = none) →
      pollForWindowsPassword d m reads = .error pollTimeoutMsg) ∧
    ((∀ t, ∃ rs, reads t = some rs ∧ scanResponses d m rs = none) →
      pollSleeps d m reads 90 0 2 = [2, 3, 4] ++ List.replicate 17 5) ∧
    pollSleeps d m readsFail 90 0 2 = List.replicate 45 2 := by
  refine ⟨?_, ?_, ?_, by rw [pollSleeps_readsFail]; decide⟩
  · intro fuel hf
    exact pollLoop_fuel_stable d m reads fuel 90 0 2 (by omega) (by omega)
      (by omega)
  · intro hnm
    exact pollLoop_timeout d m reads hnm 90 0 2
  · intro hok
    rw [pollSleeps_schedule d m reads hok 90 0 2]
    decide

/-- Witness for the amended C6 at concrete inputs: a larger fuel gives the
same result, empty-but-successful reads yield the timeout failure and the
claimed 2,3,4,5,... sleep schedule. -/
theorem pollLoop_backoff_budget_witness :
    pollLoop decryptId "M" readsEmpty 120 0 2 =
      pollForWindowsPassword decryptId "M" readsEmpty ∧
    pollForWindowsPassword decryptId "M" readsEmpty = .error pollTimeoutMsg ∧
    pollSleeps decryptId "M" readsEmpty 90 0 2 =
      [2, 3, 4] ++ List.replicate 17 5 := by
  have h := pollLoop_backoff_budget decryptId "M" readsEmpty
  refine ⟨h.1 120 (by omega), h.2.1 ?_, h.2.2.1 ?_⟩
  · intro t rs hr
    cases hr
    rfl
  · intro t
    exact ⟨[], rfl, rfl⟩

theorem getFreePortAux_succ (reg : Registry) (osListen : OsListen)
    (n attempt : Nat) :
    getFreePortAux reg osListen (n + 1) attempt =
      match osListen attempt with
      | none => .error "listen failed"
      | some port =>
        if isPortInUse reg port then getFreePortAux reg osListen n (attempt + 1)
        else .ok port := rfl

theorem getFreePortAux_ok (reg : Registry) (osListen : OsListen) :
    ∀ (n attempt p : Nat), getFreePortAux reg osListen n attempt = .ok p →
      isPortInUse reg p = false
  | 0, _, _, h => Except.noConfusion h
  | n + 1, attempt, p, h => by
    rw [getFreePortAux_succ] at h
    rcases ho : osListen attempt with _ | port
    · rw [ho] at h
      exact Except.noConfusion h
    · rw [ho] at h
      have h' : (if isPortInUse reg port then
          getFreePortAux reg osListen n (attempt + 1)
        else (.ok port : Except String Nat)) = .ok p := h
      by_cases hu : isPortInUse reg port = true
      · rw [if_pos hu] at h'
        exact getFreePortAux_ok reg osListen n (attempt + 1) p h'
      · rw [if_neg hu] at h'
        exact (Except.ok.inj h') ▸ Bool.eq_false_iff.mpr hu

/-- C4 counterexample: with a running session on port 5000 and an OS probe
that always hands back 5000 itself, a fixed-port StartTunnel call on 5000
fails with the "failed to find alternative" error — which names the port but
carries no suggested alternative, contradicting the claim that the error
always suggests one. -/
theorem startTunnel_collision_no_suggestion_cex :
    StartTunnelWithRemotePort regRun envAllBusy "p" "v" "z" 5000 3389 =
      (.error (.portInUseNoAlt 5000
        "failed to find free port after multiple attempts"), regRun) ∧
    startErrorMsg (.portInUseNoAlt 5000
        "failed to find free port after multiple attempts") =
      "port 5000 is in use by another tunnel, and failed to find alternative: failed to find free port after multiple attempts" :=
  ⟨rfl, rfl⟩

/-- C4 amended — Fixed-port collision handling: an authenticated StartTunnel
call with a nonzero port held by a live session always fails and leaves the
registry unchanged; the error names the requested port, and when the
internal allocator finds a free alternative the error suggests it — a port
distinct from the requested one and not held by any live session.  When all
ten allocator probes collide, the error still names the port but carries no
suggestion; the requested port is never silently replaced. -/
theorem startTunnel_fixed_port_collision (reg : Registry) (env : StartEnv)
    (projectID vmName zone : String) (localPort remotePort : Nat)
    (hne : localPort ≠ 0) (huse : isPortInUse reg localPort = true)
    (hauth : env.authenticated = true) :
    (StartTunnelWithRemotePort reg env projectID vmName zone localPort
      remotePort).2 = reg ∧
    ((∃ s, (StartTunnelWithRemotePort reg env projectID vmName zone localPort
        remotePort).1 = .error (.portInUseSuggest localPort s) ∧
        s ≠ localPort ∧ isPortInUse reg s = false) ∨
      (∃ msg, (StartTunnelWithRemotePort reg env projectID vmName zone
        localPort remotePort).1 = .error (.portInUseNoAlt localPort msg))) ∧
    (∀ s : Nat, startErrorMsg (.portInUseSuggest localPort s) =
      "port " ++ toString localPort ++
        " is in use by another tunnel. Suggested alternative: " ++
        toString s) := by
  have hna : (!env.authenticated) = false := by rw [hauth]; rfl
  have h0 : (localPort == 0) = false := by
    exact beq_eq_false_iff_ne.mpr hne
  have hres : resolveLocalPort reg env.osListen localPort =
      match GetFreePort reg env.osListen with
      | .error e => .error (.portInUseNoAlt localPort e)
      | .ok freePort => .error (.portInUseSuggest localPort freePort) := by
    unfold resolveLocalPort
    rw [if_neg (bool_ne_true h0), if_pos huse]
  rcases hgf : GetFreePort reg env.osListen with e | p
  · have hres' : resolveLocalPort reg env.osListen localPort =
        .error (.portInUseNoAlt localPort e) := by rw [hres, hgf]
    have hmain : StartTunnelWithRemotePort reg env projectID vmName zone
        localPort remotePort = (.error (.portInUseNoAlt localPort e), reg) := by
      simp only [StartTunnelWithRemotePort]
      rw [if_neg (bool_ne_true hna), hres']
    rw [hmain]
    exact ⟨rfl, Or.inr ⟨e, rfl⟩, fun s => rfl⟩
  · have hres' : resolveLocalPort reg env.osListen localPort =
        .error (.portInUseSuggest localPort p) := by rw [hres, hgf]
    have hfree : isPortInUse reg p = false :=
      getFreePortAux_ok reg env.osListen 10 0 p hgf
    have hneq : p ≠ localPort := by
      intro hc
      rw [hc, huse] at hfree
      exact Bool.noConfusion hfree
    have hmain : StartTunnelWithRemotePort reg env projectID vmName zone
        localPort remotePort =
        (.error (.portInUseSuggest localPort p), reg) := by
      simp only [StartTunnelWithRemotePort]
      rw [if_neg (bool_ne_true hna), hres']
    rw [hmain]
    exact ⟨rfl, Or.inl ⟨p, rfl, hneq, hfree⟩, fun s => rfl⟩

/-- Witness for the amended C4: requesting busy port 5000 while the OS probe
offers the free port 6000 fails with a suggestion, leaving the registry
unchanged. -/
theorem startTunnel_fixed_port_collision_witness :
    ((5000 : Nat) ≠ 0 ∧ isPortInUse regRun 5000 = true ∧
      envFree.authenticated = true) ∧
    (StartTunnelWithRemotePort regRun envFree "p" "v" "z" 5000 3389).2 =
      regRun ∧
    (StartTunnelWithRemotePort regRun envFree "p" "v" "z" 5000 3389).1 =
      .error (.portInUseSuggest 5000 6000) := by
  have h := startTunnel_fixed_port_collision regRun envFree "p" "v" "z"
    5000 3389 (by decide) (by decide) rfl
  exact ⟨⟨by decide, by decide, rfl⟩, h.1, rfl⟩

theorem replaceWindowsKeys_cons (v : String) (item : MetadataItems)
    (rest : List MetadataItems) :
    replaceWindowsKeys v (item :: rest) =
      if item.key == "windows-keys" then
        ({ item with value := some v } :: rest, true)
      else (item :: (replaceWindowsKeys v rest).1,
        (replaceWindowsKeys v rest).2) := rfl

theorem updateWindowsKeys_eq (items : List MetadataItems) (v : String) :
    updateWindowsKeys items v =
      if (replaceWindowsKeys v items).2 then (replaceWindowsKeys v items).1
      else items ++ [{ key := "windows-keys", value := some v }] := rfl

theorem replaceWindowsKeys_snd (v : String) :
    ∀ items : List MetadataItems,
      (replaceWindowsKeys v items).2 =
        items.any (fun it => it.key == "windows-keys")
  | [] => rfl
  | item :: rest => by
    rw [replaceWindowsKeys_cons, List.any_cons]
    by_cases h1 : (item.key == "windows-keys") = true
    · rw [if_pos h1, h1]
      rfl
    · have h1' : (item.key == "windows-keys") = false := Bool.eq_false_iff.mpr h1
      rw [if_neg h1, h1']
      show (replaceWindowsKeys v rest).2 = _
      rw [replaceWindowsKeys_snd v rest]
      rfl

theorem replaceWindowsKeys_not_found (v : String) :
    ∀ items : List MetadataItems,
      items.any (fun it => it.key == "windows-keys") = false →
      replaceWindowsKeys v items = (items, false)
  | [], _ => rfl
  | item :: rest, h => by
    rw [List.any_cons] at h
    obtain ⟨h1, h2⟩ := Bool.or_eq_false_iff.mp h
    rw [replaceWindowsKeys_cons, if_neg (bool_ne_true h1),
      replaceWindowsKeys_not_found v rest h2]

theorem replaceWindowsKeys_found (v : String) :
    ∀ items : List MetadataItems,
      items.any (fun it => it.key == "windows-keys") = true →
      (replaceWindowsKeys v items).1.length = items.length ∧
      (replaceWindowsKeys v items).1.find? (fun it => it.key == "windows-keys") =
        (items.find? (fun it => it.key == "windows-keys")).map
          (fun it => { it with value := some v })
  | [], h => Bool.noConfusion h
  | item :: rest, h => by
    rw [replaceWindowsKeys_cons]
    by_cases h1 : (item.key == "windows-keys") = true
    · rw [if_pos h1]
      have hL : List.find? (fun it => it.key == "windows-keys")
          ({ item with value := some v } :: rest) =
          some { item with value := some v } := List.find?_cons_of_pos _ h1
      have hR : List.find? (fun it => it.key == "windows-keys")
          (item :: rest) = some item := List.find?_cons_of_pos _ h1
      refine ⟨rfl, ?_⟩
      show List.find? (fun it => it.key == "windows-keys")
          ({ item with value := some v } :: rest) = _
      rw [hL, hR, Option.map_some']
    · have h2 : rest.any (fun it => it.key == "windows-keys") = true := by
        rw [List.any_cons] at h
        rcases Bool.or_eq_true_iff.mp h with hc | hc
        · exact absurd hc h1
        · exact hc
      obtain ⟨hlen2, hfind2⟩ := replaceWindowsKeys_found v rest h2
      rw [if_neg h1]
      constructor
      · show (item :: (replaceWindowsKeys v rest).1).length =
          (item :: rest).length
        rw [List.length_cons, List.length_cons, hlen2]
      · have hL : List.find? (fun it => it.key == "windows-keys")
            (item :: (replaceWindowsKeys v rest).1) =
            List.find? (fun it => it.key == "windows-keys")
              (replaceWindowsKeys v rest).1 := List.find?_cons_of_neg _ h1
        have hR : List.find? (fun it => it.key == "windows-keys")
            (item :: rest) =
            List.find? (fun it => it.key == "windows-keys") rest :=
          List.find?_cons_of_neg _ h1
        show List.find? (fun it => it.key == "windows-keys")
            (item :: (replaceWindowsKeys v rest).1) = _
        rw [hL, hR, hfind2]

theorem replaceWindowsKeys_get? (v : String) :
    ∀ (items : List MetadataItems) (i : Nat) (item : MetadataItems),
      items[i]? = some item → item.key ≠ "windows-keys" →
      (replaceWindowsKeys v items).1[i]? = some item
  | [], i, item, h, _ => by
    rw [List.getElem?_nil] at h
    exact Option.noConfusion h
  | it0 :: rest, i, item, h, hk => by
    rw [replaceWindowsKeys_cons]
    by_cases h1 : (it0.key == "windows-keys") = true
    · rw [if_pos h1]
      cases i with
      | zero =>
        rw [List.getElem?_cons_zero] at h
        have heq : it0 = item := Option.some.inj h
        exact absurd (eq_of_beq h1) (heq ▸ hk)
      | succ i =>
        rw [List.getElem?_cons_succ] at h
        show ({ it0 with value := some v } :: rest)[i + 1]? = some item
        rw [List.getElem?_cons_succ]
        exact h
    · rw [if_neg h1]
      cases i with
      | zero =>
        rw [List.getElem?_cons_zero] at h
        show (it0 :: (replaceWindowsKeys v rest).1)[0]? = some item
        rw [List.getElem?_cons_zero]
        exact h
      | succ i =>
        rw [List.getElem?_cons_succ] at h
        show (it0 :: (replaceWindowsKeys v rest).1)[i + 1]? = some item
        rw [List.getElem?_cons_succ]
        exact replaceWindowsKeys_get? v rest i item h hk

/-- C7 — Metadata read-modify-write frame: the pushed item list preserves
every entry whose key is not "windows-keys" at its original index; when no
"windows-keys" entry exists the result is exactly the fetched list with the
new envelope appended; when one exists the length is unchanged and the first
"windows-keys" entry is the fetched one with only its value replaced; and in
either case the first "windows-keys" entry of the pushed list holds the new
envelope. -/
theorem updateWindowsKeys_frame (items : List MetadataItems) (v : String) :
    (∀ (i : Nat) (item : MetadataItems), items[i]? = some item →
      item.key ≠ "windows-keys" → (updateWindowsKeys items v)[i]? = some item) ∧
    (items.any (fun it => it.key == "windows-keys") = false →
      updateWindowsKeys items v =
        items ++ [{ key := "windows-keys", value := some v }]) ∧
    (items.any (fun it => it.key == "windows-keys") = true →
      (updateWindowsKeys items v).length = items.length ∧
      (updateWindowsKeys items v).find? (fun it => it.key == "windows-keys") =
        (items.find? (fun it => it.key == "windows-keys")).map
          (fun it => { it with value := some v })) ∧
    ((updateWindowsKeys items v).find?
        (fun it => it.key == "windows-keys")).map (fun it => it.value) =
      some (some v) := by
  have hupd : updateWindowsKeys items v =
      if (replaceWindowsKeys v items).2 then (replaceWindowsKeys v items).1
      else items ++ [{ key := "windows-keys", value := some v }] :=
    updateWindowsKeys_eq items v
  by_cases hany : items.any (fun it => it.key == "windows-keys") = true
  · have hsnd : (replaceWindowsKeys v items).2 = true := by
      rw [replaceWindowsKeys_snd, hany]
    have hupd' : updateWindowsKeys items v = (replaceWindowsKeys v items).1 := by
      rw [hupd, if_pos hsnd]
    obtain ⟨hlen, hfind⟩ := replaceWindowsKeys_found v items hany
    refine ⟨?_, ?_, ?_, ?_⟩
    · intro i item hi hk
      rw [hupd']
      exact replaceWindowsKeys_get? v items i item hi hk
    · intro hc
      rw [hany] at hc
      exact Bool.noConfusion hc
    · intro _
      rw [hupd']
      exact ⟨hlen, hfind⟩
    · rw [hupd', hfind]
      obtain ⟨x, hx, hpx⟩ := List.any_eq_true.mp hany
      have hsome : (items.find? (fun it => it.key == "windows-keys")).isSome :=
        List.find?_isSome.mpr ⟨x, hx, hpx⟩
      obtain ⟨it, hit⟩ := Option.isSome_iff_exists.mp hsome
      rw [hit]
      rfl
  · have hany' : items.any (fun it => it.key == "windows-keys") = false :=
      Bool.eq_false_iff.mpr hany
    have hsnd : (replaceWindowsKeys v items).2 = false := by
      rw [replaceWindowsKeys_snd, hany']
    have hupd' : updateWindowsKeys items v =
        items ++ [{ key := "windows-keys", value := some v }] := by
      rw [hupd, if_neg (bool_ne_true hsnd)]
    refine ⟨?_, fun _ => hupd', ?_, ?_⟩
    · intro i item hi hk
      rw [hupd']
      have hlt : i < items.length := by
        obtain ⟨hw, _⟩ := List.getElem?_eq_some.mp hi
        exact hw
      rw [List.getElem?_append_left hlt]
      exact hi
    · intro hc
      rw [hany'] at hc
      exact Bool.noConfusion hc
    · have hnone : items.find? (fun it => it.key == "windows-keys") = none := by
        rw [List.find?_eq_none]
        intro x hx
        intro hpx
        rw [List.any_eq_true] at hany
        exact hany ⟨x, hx, hpx⟩
      rw [hupd', List.find?_append, hnone, Option.none_or]
      rfl

/-- Witness for C7 at a concrete two-entry metadata document holding an
unrelated "ssh-keys" entry and an old "windows-keys" entry. -/
theorem updateWindowsKeys_frame_witness :
    itemsW[0]? = some { key := "ssh-keys", value := some "K" } ∧
    (updateWindowsKeys itemsW "NEW")[0]? =
      some { key := "ssh-keys", value := some "K" } ∧
    (updateWindowsKeys itemsW "NEW").length = itemsW.length ∧
    ((updateWindowsKeys itemsW "NEW").find?
        (fun it => it.key == "windows-keys")).map (fun it => it.value) =
      some (some "NEW") := by
  have h := updateWindowsKeys_frame itemsW "NEW"
  refine ⟨rfl, ?_, ?_, h.2.2.2⟩
  · exact h.1 0 { key := "ssh-keys", value := some "K" } rfl (by decide)
  · exact (h.2.2.1 rfl).1

theorem hexChar_mem (n : Nat) : hexChar n ∈ hexDigitChars := by
  unfold hexChar List.getD
  rcases h : hexDigitChars.get? n with _ | c
  · decide
  · exact List.get?_mem h

theorem toNumericChar_digit : ∀ c ∈ hexDigitChars, (toNumericChar c).isDigit = true := by
  decide

theorem hexEncode_cons (b : Fin 256) (bs : List (Fin 256)) :
    hexEncode (b :: bs) =
      hexChar (b.val / 16) :: hexChar (b.val % 16) :: hexEncode bs := rfl

theorem hexEncode_mem : ∀ (bytes : List (Fin 256)) (c : Char),
    c ∈ hexEncode bytes → c ∈ hexDigitChars
  | [], c, h => absurd h (List.not_mem_nil c)
  | b :: bs, c, h => by
    rw [hexEncode_cons] at h
    rcases List.mem_cons.mp h with h1 | h1
    · exact h1 ▸ hexChar_mem (b.val / 16)
    · rcases List.mem_cons.mp h1 with h2 | h2
      · exact h2 ▸ hexChar_mem (b.val % 16)
      · exact hexEncode_mem bs c h2

theorem hexEncode_length : ∀ bytes : List (Fin 256),
    (hexEncode bytes).length = 2 * bytes.length
  | [] => rfl
  | b :: bs => by
    rw [hexEncode_cons, List.length_cons, List.length_cons, List.length_cons,
      hexEncode_length bs]
    omega

theorem buildNumericID_cons (c : Char) (cs acc : List Char) :
    buildNumericID (c :: cs) acc =
      if acc.length < 7 then buildNumericID cs (acc ++ [toNumericChar c])
      else acc := rfl

theorem buildNumericID_length : ∀ (cs acc : List Char), acc.length ≤ 7 →
    (buildNumericID cs acc).length = min 7 (acc.length + cs.length)
  | [], acc, h => by
    show acc.length = min 7 (acc.length + ([] : List Char).length)
    rw [List.length_nil]
    omega
  | c :: cs, acc, h => by
    rw [buildNumericID_cons]
    by_cases h7 : acc.length < 7
    · rw [if_pos h7, buildNumericID_length cs (acc ++ [toNumericChar c])
        (by rw [List.length_append, List.length_cons, List.length_nil]; omega)]
      rw [List.length_append, List.length_cons, List.length_cons,
        List.length_nil]
      omega
    · rw [if_neg h7, List.length_cons]
      omega

theorem buildNumericID_digits :
    ∀ (cs acc : List Char), (∀ c ∈ cs, (toNumericChar c).isDigit = true) →
      (∀ c ∈ acc, c.isDigit = true) →
      ∀ c ∈ buildNumericID cs acc, c.isDigit = true
  | [], _, _, hacc => hacc
  | c :: cs, acc, hcs, hacc => by
    rw [buildNumericID_cons]
    by_cases h7 : acc.length < 7
    · rw [if_pos h7]
      refine buildNumericID_digits cs (acc ++ [toNumericChar c])
        (fun x hx => hcs x (List.mem_cons_of_mem c hx)) ?_
      intro x hx
      rcases List.mem_append.mp hx with h1 | h1
      · exact hacc x h1
      · rcases List.mem_cons.mp h1 with h2 | h2
        · exact h2 ▸ hcs c (List.mem_cons_self c cs)
        · exact absurd h2 (List.not_mem_nil x)
    · rw [if_neg h7]
      exact hacc

/-- C9 — Bookmark-ID normal form and determinism: for any hash collaborator
producing at least 8 bytes on the hashed "project:vm:zone" key, the
generated bookmark ID is exactly 7 characters long, every character is an
ASCII decimal digit, and equal input triples yield equal IDs. -/
theorem generateBookmarkID_seven_digits (hash : String → List (Fin 256))
    (projectID vmName zone : String)
    (hlen : 8 ≤ (hash (projectID ++ ":" ++ vmName ++ ":" ++ zone)).length) :
    (GenerateBookmarkID hash projectID vmName zone).length = 7 ∧
    (∀ c ∈ (GenerateBookmarkID hash projectID vmName zone).toList,
      c.isDigit = true) ∧
    (∀ p' v' z', projectID = p' → vmName = v' → zone = z' →
      GenerateBookmarkID hash projectID vmName zone =
        GenerateBookmarkID hash p' v' z') := by
  have hhexlen : (hexEncode ((hash (projectID ++ ":" ++ vmName ++ ":" ++
      zone)).take 8)).length = 16 := by
    rw [hexEncode_length, List.length_take]
    omega
  have hbuildlen : (buildNumericID
      (hexEncode ((hash (projectID ++ ":" ++ vmName ++ ":" ++ zone)).take 8))
      []).length = 7 := by
    rw [buildNumericID_length _ [] (by simp), List.length_nil, hhexlen]
    omega
  have hpad : padTo7 (buildNumericID
      (hexEncode ((hash (projectID ++ ":" ++ vmName ++ ":" ++ zone)).take 8))
      []) = buildNumericID
      (hexEncode ((hash (projectID ++ ":" ++ vmName ++ ":" ++ zone)).take 8))
      [] := by
    unfold padTo7
    rw [hbuildlen]
    simp
  refine ⟨?_, ?_, ?_⟩
  · show (String.mk (padTo7 _)).length = 7
    rw [String.length, hpad]
    exact hbuildlen
  · intro c hc
    have hc' : c ∈ padTo7 (buildNumericID
        (hexEncode ((hash (projectID ++ ":" ++ vmName ++ ":" ++ zone)).take 8))
        []) := hc
    rw [hpad] at hc'
    refine buildNumericID_digits _ [] ?_ (fun x hx => absurd hx (List.not_mem_nil x)) c hc'
    intro x hx
    exact toNumericChar_digit x (hexEncode_mem _ x hx)
  · intro p' v' z' hp hv hz
    rw [hp, hv, hz]

/-- Witness for C9 with the all-zero hash stand-in: 32 bytes are produced,
and the generated ID is the 7-digit string "0000000". -/
theorem generateBookmarkID_seven_digits_witness :
    8 ≤ (zeroHash ("p" ++ ":" ++ "v" ++ ":" ++ "z")).length ∧
    (GenerateBookmarkID zeroHash "p" "v" "z").length = 7 ∧
    GenerateBookmarkID zeroHash "p" "v" "z" = "0000000" :=
  ⟨by decide,
    (generateBookmarkID_seven_digits zeroHash "p" "v" "z" (by decide)).1,
    by decide⟩

end IapMac
